import Mathlib

/-!
Verification of the crdts repository (src/crdts/src/main.rs): a counter CRDT
whose operations are persisted in per-actor append-only file logs.

The shallow embedding below models:
* the operation/identity data model (`Operation`, `OperationSigned`, `CRDT`),
* `CRDT.apply` (the merge step; its Rust source lives in the `replicant`
  module which is not part of src/, so it is modelled from the spec §4.1/§4.2),
* `restore_operations` / `get_operations_in_path` (main.rs lines 130-220),
* `save_operations` (main.rs lines 223-258) over an association-list file
  system keyed by path strings,
* `attempt_to_open_project` / `read_project` (main.rs lines 45-74),
* the keystore persistence `get_all_saved_keypairs` / `set_all_saved_keypairs`
  (main.rs lines 315-369), including the fact that the writing side opens the
  file without truncation.

Machine integers do not overflow here (Rust counters and values are modelled
as `Nat`, faithful to the spec's "non-negative integer" payloads).
-/

namespace Crdts

/-- The payload stored in one operation file (Rust `OperationSigned<Desc>`
from the `replicant` module, absent from src/).  Modelled from the spec §3:
an operation carries a causal counter, a description payload (for the counter
instantiation: a non-negative increment, §4.2) and a signature over the
payload.  Keys, descriptions and signatures are modelled as `Nat`. -/
structure OperationSigned where
  counter : Nat
  desc : Nat
  sig : Nat
deriving DecidableEq, Repr

/-- A full operation as reconstructed by `get_operations_in_path`
(main.rs lines 213-217): the actor public key inferred from the sub-log
directory name together with the decoded file payload. -/
structure Operation where
  user_pub_key : Nat
  data : OperationSigned
deriving DecidableEq, Repr

/-- The (actor, counter) identifier of an operation — the key of the
applied-set (spec §3, Merge Engine state). -/
def opId (op : Operation) : Nat × Nat :=
  (op.user_pub_key, op.data.counter)

/-- Merge Engine state (Rust `CRDT<T>` at the `Nat` counter instantiation):
current value, set of applied (actor, counter) identifiers, and the pending
unflushed operations keyed by counter (Rust `HashMap<Counter, Operation>`,
modelled as an association list). -/
structure CRDT where
  value : Nat
  applied : Finset (Nat × Nat)
  pending : List (Nat × Operation)
deriving DecidableEq

/-- Modelled from the spec: `CRDT::apply` lives in the `replicant` module,
which is not under src/.  Per §4.1 it is a no-op when the operation's
(actor, counter) is already in the applied set; otherwise it folds the
description into the value with the instantiation's merge function
(`merge_fn(value, delta) = value + delta`, §4.2) and records the identifier.
Per §9 no signature-verification step is evident in the implementation, so
`apply` does not inspect the signature. -/
def CRDT.apply (crdt : CRDT) (op : Operation) : CRDT :=
  if opId op ∈ crdt.applied then crdt
  else { crdt with
          value := crdt.value + op.data.desc
          applied := insert (opId op) crdt.applied }

/-- Modelled from the spec: Ed25519 signing (sodiumoxide `sign`) is an
external library; the signature relation is modelled as a decidable check
tying the signature to the actor key and payload ("signature over the
payload", §3). -/
def sigOf (pk counter desc : Nat) : Nat :=
  pk + 2 * counter + 3 * desc + 1

/-- Whether an operation's signature verifies against its claimed actor
public key (see `sigOf`). -/
def verify_signature (op : Operation) : Bool :=
  op.data.sig = sigOf op.user_pub_key op.data.counter op.data.desc

/-- Replace an operation's signature, leaving actor key, counter and
description unchanged. -/
def setSig (op : Operation) (s : Nat) : Operation :=
  { op with data := { op.data with sig := s } }

/-- `get_operations_in_path` (main.rs lines 169-220): every file found in an
actor's sub-log directory is decoded and paired with the public key recovered
from the directory name.  The directory is modelled as the recovered key
together with the list of decoded file payloads in discovery order.  No
signature check is performed. -/
def get_operations_in_path (pk : Nat) (files : List OperationSigned) : List Operation :=
  files.map fun d => { user_pub_key := pk, data := d }

/-- The flat list of operations discovered by crawling the `operations`
folder: the concatenation, in discovery order, of each actor sub-directory's
operations (main.rs lines 139-161, `all_operations`). -/
def all_operations (userDirs : List (Nat × List OperationSigned)) : List Operation :=
  (userDirs.map fun e => get_operations_in_path e.1 e.2).flatten

/-- `restore_operations` (main.rs lines 130-166): if the `operations`
directory does not exist the input CRDT is returned unchanged; otherwise
every discovered operation is folded through `CRDT.apply`.  The on-disk
directory is modelled as `none` (missing) or `some userDirs` (the actor
sub-directories in discovery order). -/
def restore_operations (opsDir : Option (List (Nat × List OperationSigned)))
    (crdt : CRDT) : CRDT :=
  match opsDir with
  | none => crdt
  | some userDirs => (all_operations userDirs).foldl CRDT.apply crdt

/-- A file system fragment: an association list from path strings to file
contents (byte lists).  Later bindings are shadowed by earlier ones, but the
store only ever creates fresh paths. -/
def FS := List (String × List Nat)

/-- Look up the content of a path. -/
def fsLookup : FS → String → Option (List Nat)
  | [], _ => none
  | e :: rest, p => if e.1 = p then some e.2 else fsLookup rest p

/-- `Path::exists` on the model. -/
def fsExists (fs : FS) (p : String) : Bool :=
  (fsLookup fs p).isSome

/-- Modelled from the spec: the sub-log directory name is "a reversible text
encoding of the serialized actor public key" (§4.4; base64-of-bincode in the
code, both external libraries); modelled as the decimal rendering of the
modelled key. -/
def encodeActorKey (pk : Nat) : String :=
  toString pk

/-- The path `save_operations` writes an operation to (main.rs lines
231-243): `operations/<encoded-actor-public-key>/<counter>.pennyop`. -/
def opFilePath (pk counter : Nat) : String :=
  "operations/" ++ encodeActorKey pk ++ "/" ++ toString counter ++ ".pennyop"

/-- Modelled from the spec: the bincode serialization of an operation payload
(external library; "compact binary encoding" whose only contract is that it
round-trips, §4.4). -/
def encodeOpData (d : OperationSigned) : List Nat :=
  [d.counter, d.desc, d.sig]

/-- `save_operations` (main.rs lines 223-258): drain the pending map (the
drain order is modelled by the list order), and for each (counter, operation)
write the encoded payload to its counter-addressed file.  If the target file
already exists the process panics (modelled by returning the file system as
it stands paired with `true`); otherwise the file is created and the loop
continues.  The second component records whether the process aborted. -/
def save_operations (fs : FS) : List (Nat × Operation) → FS × Bool
  | [] => (fs, false)
  | (counter, op) :: rest =>
      if fsExists fs (opFilePath op.user_pub_key counter) then (fs, true)
      else
        save_operations ((opFilePath op.user_pub_key counter, encodeOpData op.data) :: fs) rest

/-- Outcome of opening a project (main.rs lines 45-96): the genesis record
was read successfully, the process aborted fatally, or the user was routed to
interactive project creation. -/
inductive OpenOutcome where
  | opened : Nat × Nat → OpenOutcome
  | fatal : OpenOutcome
  | promptCreate : OpenOutcome
deriving DecidableEq, Repr

/-- Modelled from the spec: bincode decoding of the genesis record
`CRDTInfo<Nat>` (external library; the record is "{initial value, dataset
identifier}", §3, and decoding either reproduces the original exactly or
fails). -/
def decodeInfo : List Nat → Option (Nat × Nat)
  | [v, id] => some (v, id)
  | _ => none

/-- `read_project` (main.rs lines 60-74): the bytes of an existing
`project.penny` are deserialized with `.unwrap()`, so a corrupt encoding is a
fatal abort; a successful decode proceeds with the project. -/
def read_project (bytes : List Nat) : OpenOutcome :=
  match decodeInfo bytes with
  | some info => .opened info
  | none => .fatal

/-- `attempt_to_open_project` (main.rs lines 45-55): if `project.penny` can
be opened its contents go to `read_project`; only when opening the file
fails is the user offered interactive creation.  The file is modelled as
`none` (open failed) or `some bytes`. -/
def attempt_to_open_project (pennyfile : Option (List Nat)) : OpenOutcome :=
  match pennyfile with
  | some bytes => read_project bytes
  | none => .promptCreate

/-- Rust `DirectoryLevelUserInfo` (main.rs lines 265-269): a per-directory
signing keypair, keys modelled as `Nat`. -/
structure DirectoryLevelUserInfo where
  pk : Nat
  sk : Nat
deriving DecidableEq, Repr

/-- Rust `SavedKeys` (main.rs lines 281-285): the machine-level keypair plus
the map from context hash to directory-level keypair (modelled as an
association list with `Nat` hashes). -/
structure SavedKeys where
  computer_pk : Nat
  computer_sk : Nat
  dir_level_keys : List (Nat × DirectoryLevelUserInfo)
deriving DecidableEq, Repr

/-- Encode the directory-level entries, three numbers per entry. -/
def encodeEntries : List (Nat × DirectoryLevelUserInfo) → List Nat
  | [] => []
  | (h, u) :: rest => h :: u.pk :: u.sk :: encodeEntries rest

/-- Decode exactly `n` directory-level entries, rejecting trailing input. -/
def decodeEntries : Nat → List Nat → Option (List (Nat × DirectoryLevelUserInfo))
  | 0, [] => some []
  | 0, _ :: _ => none
  | n + 1, h :: pk :: sk :: rest => (decodeEntries n rest).map fun es => (h, ⟨pk, sk⟩) :: es
  | _ + 1, _ => none

/-- Modelled from the spec: `serde_json::to_string` on `SavedKeys` (external
library; "a single plaintext JSON document", §6).  Modelled as a
length-prefixed flat encoding. -/
def encodeKeys (k : SavedKeys) : List Nat :=
  k.computer_pk :: k.computer_sk :: k.dir_level_keys.length :: encodeEntries k.dir_level_keys

/-- Modelled from the spec: `serde_json::from_str` on `SavedKeys` (external
library).  Like serde_json it fails on trailing characters after the
document. -/
def decodeKeys : List Nat → Option SavedKeys
  | cpk :: csk :: n :: rest => (decodeEntries n rest).map fun es => ⟨cpk, csk, es⟩
  | _ => none

/-- Writing a buffer from offset 0 into a file opened WITHOUT truncation
(`OpenOptions::new().read(false).write(true).create(true)`, main.rs lines
358-363): bytes of the previous content beyond the buffer's length survive. -/
def writeNoTruncate (old new : List Nat) : List Nat :=
  new ++ old.drop new.length

/-- `set_all_saved_keypairs` (main.rs lines 350-369): serialize the keystore
and write it over the existing `keys.json` without truncating it.  `old` is
the file's previous content. -/
def set_all_saved_keypairs (old : List Nat) (k : SavedKeys) : List Nat :=
  writeNoTruncate old (encodeKeys k)

/-- `get_all_saved_keypairs` (main.rs lines 315-347) on an existing
`keys.json`: read the whole file and parse it; the code unwraps the parse, so
`none` models the fatal panic on unparsable content. -/
def get_all_saved_keypairs (contents : List Nat) : Option SavedKeys :=
  decodeKeys contents

/-- Two operations either have distinct (actor, counter) identifiers or are
the same operation — the shape every well-formed log has, since a counter
value is never reused by an actor (spec §3, invariant 1). -/
def coherent (ops : List Operation) : Prop :=
  ops.Pairwise fun a b => opId a = opId b → a = b

instance (ops : List Operation) : Decidable (coherent ops) :=
  inferInstanceAs (Decidable (ops.Pairwise _))

/-- One on-disk log seen under two enumeration orders: the actor
sub-directories are discovered in some other order, and within each
sub-directory the operation files are discovered in some other order. -/
def logPerm (l1 l2 : List (Nat × List OperationSigned)) : Prop :=
  ∃ mid, l1.Perm mid ∧ List.Forall₂ (fun a b => a.1 = b.1 ∧ a.2.Perm b.2) mid l2

/-! ## Helper lemmas about the merge step -/

theorem apply_of_mem (s : CRDT) (op : Operation) (h : opId op ∈ s.applied) :
    s.apply op = s := by
  simp [CRDT.apply, h]

theorem mem_applied_apply (s : CRDT) (op : Operation) :
    opId op ∈ (s.apply op).applied := by
  unfold CRDT.apply
  split
  · assumption
  · exact Finset.mem_insert_self _ _

theorem applied_mono (s : CRDT) (op : Operation) {i : Nat × Nat}
    (h : i ∈ s.applied) : i ∈ (s.apply op).applied := by
  unfold CRDT.apply
  split
  · exact h
  · exact Finset.mem_insert_of_mem h

theorem apply_comm (s : CRDT) {a b : Operation} (h : opId a ≠ opId b) :
    (s.apply a).apply b = (s.apply b).apply a := by
  by_cases ha : opId a ∈ s.applied <;> by_cases hb : opId b ∈ s.applied
  · simp [CRDT.apply, ha, hb]
  · simp [CRDT.apply, ha, hb, Finset.mem_insert]
  · simp [CRDT.apply, ha, hb, Finset.mem_insert]
  · simp only [CRDT.apply, ha, hb, if_false, Finset.mem_insert, Ne.symm h, h, or_false,
      if_neg, not_false_eq_true, CRDT.mk.injEq]
    refine ⟨by omega, Finset.Insert.comm _ _ _, trivial⟩

theorem foldl_applied_mono (l : List Operation) (s : CRDT) {i : Nat × Nat}
    (h : i ∈ s.applied) : i ∈ (l.foldl CRDT.apply s).applied := by
  induction l generalizing s with
  | nil => exact h
  | cons a l ih => exact ih _ (applied_mono _ _ h)

theorem foldl_apply_perm {l1 l2 : List Operation} (hp : l1.Perm l2)
    (hc : coherent l1) (s : CRDT) :
    l1.foldl CRDT.apply s = l2.foldl CRDT.apply s := by
  induction hp generalizing s with
  | nil => rfl
  | cons x hp ih =>
      exact ih (List.pairwise_cons.mp hc).2 _
  | swap x y l =>
      have hxy : opId y = opId x → y = x :=
        (List.pairwise_cons.mp hc).1 x (List.mem_cons_self _ _)
      simp only [List.foldl_cons]
      by_cases he : opId y = opId x
      · rw [hxy he]
      · rw [apply_comm s he]
  | trans h1 _h2 ih1 ih2 =>
      have hsymm : ∀ {x y : Operation},
          (opId x = opId y → x = y) → (opId y = opId x → y = x) :=
        fun hf he => (hf he.symm).symm
      rw [ih1 hc s, ih2 ((h1.pairwise_iff hsymm).mp hc) s]

theorem flatten_perm_of_forall2 {l1 l2 : List (List Operation)}
    (h : List.Forall₂ List.Perm l1 l2) : l1.flatten.Perm l2.flatten := by
  induction h with
  | nil => rfl
  | cons hab _ ih => simpa using hab.append ih

theorem forall2_ops_perm {mid l2 : List (Nat × List OperationSigned)}
    (h : List.Forall₂ (fun a b => a.1 = b.1 ∧ a.2.Perm b.2) mid l2) :
    List.Forall₂ List.Perm (mid.map fun e => get_operations_in_path e.1 e.2)
      (l2.map fun e => get_operations_in_path e.1 e.2) := by
  induction h with
  | nil => exact List.Forall₂.nil
  | @cons a b la lb hab _htail ih =>
      obtain ⟨ka, fa⟩ := a
      obtain ⟨kb, fb⟩ := b
      obtain ⟨hfst, hsnd⟩ := hab
      dsimp only at hfst
      subst hfst
      exact List.Forall₂.cons (hsnd.map _) ih

theorem all_operations_perm {l1 l2 : List (Nat × List OperationSigned)}
    (h : logPerm l1 l2) : (all_operations l1).Perm (all_operations l2) := by
  obtain ⟨mid, h1, h2⟩ := h
  have p1 : (all_operations l1).Perm (all_operations mid) := (h1.map _).flatten
  have p2 : (all_operations mid).Perm (all_operations l2) :=
    flatten_perm_of_forall2 (forall2_ops_perm h2)
  exact p1.trans p2

/-! ## Helper lemmas about the file-backed store -/

theorem fsExists_cons (e : String × List Nat) (fs : FS) (p : String)
    (h : fsExists fs p = true) : fsExists (e :: fs) p = true := by
  by_cases he : e.1 = p <;> simp [fsExists, fsLookup, he] at h ⊢
  exact h

theorem fsLookup_save_preserve (ops : List (Nat × Operation)) :
    ∀ (fs : FS) (p : String) (c : List Nat), fsLookup fs p = some c →
      fsLookup (save_operations fs ops).1 p = some c := by
  induction ops with
  | nil => intro fs p c h; exact h
  | cons e rest ih =>
      intro fs p c h
      obtain ⟨counter, op⟩ := e
      by_cases hex : fsExists fs (opFilePath op.user_pub_key counter)
      · simpa [save_operations, hex] using h
      · simp only [save_operations, hex, if_false, Bool.false_eq_true]
        apply ih
        have hne : opFilePath op.user_pub_key counter ≠ p := by
          intro hpe
          rw [hpe] at hex
          simp [fsExists, h] at hex
        simp [fsLookup, hne]
        exact h

theorem fsExists_save (ops : List (Nat × Operation)) (fs : FS) (p : String)
    (h : fsExists fs p = true) : fsExists (save_operations fs ops).1 p = true := by
  simp only [fsExists, Option.isSome_iff_exists] at h
  obtain ⟨c, hc⟩ := h
  simp [fsExists, fsLookup_save_preserve ops fs p c hc]

theorem save_aborts (ops : List (Nat × Operation)) :
    ∀ (fs : FS) (counter : Nat) (op : Operation), (counter, op) ∈ ops →
      fsExists fs (opFilePath op.user_pub_key counter) = true →
      (save_operations fs ops).2 = true := by
  induction ops with
  | nil => intro _ _ _ h; cases h
  | cons e rest ih =>
      intro fs counter op hmem hex
      obtain ⟨c0, o0⟩ := e
      by_cases hex0 : fsExists fs (opFilePath o0.user_pub_key c0)
      · simp [save_operations, hex0]
      · simp only [save_operations, hex0, if_false, Bool.false_eq_true]
        rcases List.mem_cons.mp hmem with heq | hmem'
        · injection heq with h1 h2
          subst h1; subst h2
          exact absurd hex hex0
        · exact ih _ _ _ hmem' (fsExists_cons _ _ _ hex)

theorem save_written (ops : List (Nat × Operation)) :
    ∀ (fs : FS) (counter : Nat) (op : Operation), (counter, op) ∈ ops →
      (save_operations fs ops).2 = false →
      fsLookup (save_operations fs ops).1 (opFilePath op.user_pub_key counter)
        = some (encodeOpData op.data) := by
  induction ops with
  | nil => intro _ _ _ h; cases h
  | cons e rest ih =>
      intro fs counter op hmem hok
      obtain ⟨c0, o0⟩ := e
      by_cases hex0 : fsExists fs (opFilePath o0.user_pub_key c0)
      · simp [save_operations, hex0] at hok
      · simp only [save_operations, hex0, if_false, Bool.false_eq_true] at hok ⊢
        rcases List.mem_cons.mp hmem with heq | hmem'
        · injection heq with h1 h2
          subst h1; subst h2
          apply fsLookup_save_preserve
          simp [fsLookup]
        · exact ih _ _ _ hmem' hok

theorem save_append (l1 : List (Nat × Operation)) :
    ∀ (fs : FS) (l2 : List (Nat × Operation)), (save_operations fs l1).2 = false →
      save_operations fs (l1 ++ l2) = save_operations (save_operations fs l1).1 l2 := by
  induction l1 with
  | nil => intro fs l2 _; rfl
  | cons e rest ih =>
      intro fs l2 hok
      obtain ⟨c0, o0⟩ := e
      by_cases hex0 : fsExists fs (opFilePath o0.user_pub_key c0)
      · simp [save_operations, hex0] at hok
      · simp only [List.cons_append, save_operations, hex0, if_false,
          Bool.false_eq_true] at hok ⊢
        exact ih _ _ hok

/-! ## Claim theorems -/

/-- Claim C1: restoring the same on-disk operation log under any enumeration
order of actor sub-directories, and of the operation files within each
sub-directory, produces the same final value (indeed, the same entire merge
state).  The log is well-formed in the sense of invariant 1 (a causal counter
is never reused), expressed as `coherent`: any two discovered operations with
the same (actor, counter) identifier are the same operation. -/
theorem C1_replay_order_independence (crdt : CRDT)
    (l1 l2 : List (Nat × List OperationSigned)) (hperm : logPerm l1 l2)
    (hcoh : coherent (all_operations l1)) :
    restore_operations (some l1) crdt = restore_operations (some l2) crdt :=
  foldl_apply_perm (all_operations_perm hperm) hcoh crdt

/-- Witness for C1: two actor sub-logs enumerated in both orders. -/
theorem C1_replay_order_independence_witness :
    coherent (all_operations [(0, [⟨1, 2, 3⟩]), (1, [⟨1, 5, 6⟩])]) ∧
    restore_operations (some [(0, [⟨1, 2, 3⟩]), (1, [⟨1, 5, 6⟩])]) ⟨0, ∅, []⟩
      = restore_operations (some [(1, [⟨1, 5, 6⟩]), (0, [⟨1, 2, 3⟩])]) ⟨0, ∅, []⟩ :=
  ⟨by decide, C1_replay_order_independence ⟨0, ∅, []⟩ _ _
    ⟨[(1, [⟨1, 5, 6⟩]), (0, [⟨1, 2, 3⟩])], by decide,
      List.Forall₂.cons (by decide) (List.Forall₂.cons (by decide) List.Forall₂.nil)⟩
    (by decide)⟩

/-- Claim C2: for every state `s` and operations `a`, `b` with distinct
(actor, counter) identifiers, `apply(apply(s, a), b) = apply(apply(s, b), a)`. -/
theorem C2_apply_commutes (s : CRDT) (a b : Operation) (h : opId a ≠ opId b) :
    (s.apply a).apply b = (s.apply b).apply a :=
  apply_comm s h

/-- Witness for C2: two concrete operations from different actors. -/
theorem C2_apply_commutes_witness :
    opId ⟨0, ⟨1, 2, 3⟩⟩ ≠ opId ⟨1, ⟨1, 5, 6⟩⟩ ∧
    ((⟨0, ∅, []⟩ : CRDT).apply ⟨0, ⟨1, 2, 3⟩⟩).apply ⟨1, ⟨1, 5, 6⟩⟩
      = ((⟨0, ∅, []⟩ : CRDT).apply ⟨1, ⟨1, 5, 6⟩⟩).apply ⟨0, ⟨1, 2, 3⟩⟩ :=
  ⟨by decide, C2_apply_commutes ⟨0, ∅, []⟩ ⟨0, ⟨1, 2, 3⟩⟩ ⟨1, ⟨1, 5, 6⟩⟩ (by decide)⟩

/-- Claim C3: applying an operation a second time is a no-op,
`apply(apply(s, a), a) = apply(s, a)`; in particular folding a log that
contains the same operation twice (anywhere) gives the same result as folding
the log with the duplicate removed. -/
theorem C3_apply_idempotent (s : CRDT) (a : Operation) :
    (s.apply a).apply a = s.apply a ∧
    ∀ (crdt : CRDT) (pre mid post : List Operation),
      (pre ++ a :: mid ++ a :: post).foldl CRDT.apply crdt
        = (pre ++ a :: mid ++ post).foldl CRDT.apply crdt := by
  constructor
  · exact apply_of_mem _ _ (mem_applied_apply s a)
  · intro crdt pre mid post
    simp only [List.foldl_append, List.foldl_cons]
    rw [apply_of_mem _ _ (foldl_applied_mono mid _ (mem_applied_apply _ a))]

/-- Claim C4: if `save_operations` encounters a pending operation whose
target counter file already exists, it aborts (second component `true`), the
colliding operation is not written (its target file keeps its old content),
and every file that existed before the call keeps its original content. -/
theorem C4_save_collision_fatal (fs : FS) (ops : List (Nat × Operation)) :
    (∀ (p : String) (c : List Nat), fsLookup fs p = some c →
        fsLookup (save_operations fs ops).1 p = some c) ∧
    (∀ (counter : Nat) (op : Operation), (counter, op) ∈ ops →
        fsExists fs (opFilePath op.user_pub_key counter) = true →
        (save_operations fs ops).2 = true ∧
        fsLookup (save_operations fs ops).1 (opFilePath op.user_pub_key counter)
          = fsLookup fs (opFilePath op.user_pub_key counter)) := by
  refine ⟨fun p c h => fsLookup_save_preserve ops fs p c h, fun counter op hmem hex => ?_⟩
  refine ⟨save_aborts ops fs counter op hmem hex, ?_⟩
  simp only [fsExists, Option.isSome_iff_exists] at hex
  obtain ⟨c, hc⟩ := hex
  rw [hc, fsLookup_save_preserve ops fs _ c hc]

/-- Witness for C4: a batch whose single operation targets an existing file. -/
theorem C4_save_collision_fatal_witness :
    fsLookup (save_operations [(opFilePath 0 1, [9])] [(1, ⟨0, ⟨1, 2, 3⟩⟩)]).1
        (opFilePath 0 1) = some [9] ∧
    (save_operations [(opFilePath 0 1, [9])] [(1, ⟨0, ⟨1, 2, 3⟩⟩)]).2 = true :=
  ⟨(C4_save_collision_fatal [(opFilePath 0 1, [9])] [(1, ⟨0, ⟨1, 2, 3⟩⟩)]).1
      (opFilePath 0 1) [9] (by decide),
   ((C4_save_collision_fatal [(opFilePath 0 1, [9])] [(1, ⟨0, ⟨1, 2, 3⟩⟩)]).2
      1 ⟨0, ⟨1, 2, 3⟩⟩ (by decide) (by decide)).1⟩

/-- Counterexample to claim C5: an operation whose signature does not verify
against its claimed actor key is folded into the merged value anyway —
`apply` adds its description to the value and records its identifier. -/
theorem C5_counterexample_unverified_folded :
    verify_signature ⟨0, ⟨1, 5, 999⟩⟩ = false ∧
    (CRDT.apply ⟨0, ∅, []⟩ ⟨0, ⟨1, 5, 999⟩⟩).value = 5 ∧
    opId ⟨0, ⟨1, 5, 999⟩⟩ ∈ (CRDT.apply ⟨0, ∅, []⟩ ⟨0, ⟨1, 5, 999⟩⟩).applied := by
  decide

/-- Claim C5 as amended: neither restore nor apply inspects signatures; the
merge result is entirely independent of an operation's signature field, and
the restore path returns every decodable file's operation unfiltered. -/
theorem C5_apply_ignores_signature (s : CRDT) (op : Operation) (x y : Nat) :
    s.apply (setSig op x) = s.apply (setSig op y) ∧
    ∀ (pk : Nat) (files : List OperationSigned),
      (get_operations_in_path pk files).length = files.length := by
  refine ⟨rfl, fun pk files => ?_⟩
  simp [get_operations_in_path]

/-- Claim C6: if `project.penny` exists but its contents do not decode, the
open path is a fatal abort and never routes to interactive creation. -/
theorem C6_corrupt_genesis_fatal (bytes : List Nat) (h : decodeInfo bytes = none) :
    attempt_to_open_project (some bytes) = OpenOutcome.fatal ∧
    attempt_to_open_project (some bytes) ≠ OpenOutcome.promptCreate := by
  simp [attempt_to_open_project, read_project, h]

/-- Witness for C6: a one-byte (hence corrupt) genesis record. -/
theorem C6_corrupt_genesis_fatal_witness :
    decodeInfo [7] = none ∧ attempt_to_open_project (some [7]) = OpenOutcome.fatal :=
  ⟨by decide, (C6_corrupt_genesis_fatal [7] (by decide)).1⟩

/-- Counterexample to claim C7: the store writes `<counter>.pennyop`, not
`<counter>.op`: saving the first operation of a fresh project creates
`operations/0/1.pennyop` and nothing at `operations/0/1.op`. -/
theorem C7_counterexample_file_extension :
    (save_operations [] [(1, ⟨0, ⟨1, 3, 10⟩⟩)]).2 = false ∧
    fsLookup (save_operations [] [(1, ⟨0, ⟨1, 3, 10⟩⟩)]).1 "operations/0/1.op" = none ∧
    fsLookup (save_operations [] [(1, ⟨0, ⟨1, 3, 10⟩⟩)]).1 "operations/0/1.pennyop"
      = some [1, 3, 10] := by
  decide

/-- Claim C7 as amended: every pending operation of a batch that completes
without aborting is persisted, binary-encoded, at
`operations/<encoded-actor-public-key>/<counter>.pennyop`. -/
theorem C7_save_writes_counter_pennyop_file (fs : FS) (ops : List (Nat × Operation))
    (counter : Nat) (op : Operation) (hmem : (counter, op) ∈ ops)
    (hok : (save_operations fs ops).2 = false) :
    fsLookup (save_operations fs ops).1 (opFilePath op.user_pub_key counter)
      = some (encodeOpData op.data) :=
  save_written ops fs counter op hmem hok

/-- Witness for C7 as amended: a fresh project's first two operations land in
`1.pennyop` and `2.pennyop` under the actor's sub-log. -/
theorem C7_save_writes_counter_pennyop_file_witness :
    fsLookup (save_operations [] [(1, ⟨0, ⟨1, 3, 10⟩⟩), (2, ⟨0, ⟨2, 4, 11⟩⟩)]).1
        (opFilePath 0 1) = some (encodeOpData ⟨1, 3, 10⟩) ∧
    fsLookup (save_operations [] [(1, ⟨0, ⟨1, 3, 10⟩⟩), (2, ⟨0, ⟨2, 4, 11⟩⟩)]).1
        (opFilePath 0 2) = some (encodeOpData ⟨2, 4, 11⟩) :=
  ⟨C7_save_writes_counter_pennyop_file [] [(1, ⟨0, ⟨1, 3, 10⟩⟩), (2, ⟨0, ⟨2, 4, 11⟩⟩)]
      1 ⟨0, ⟨1, 3, 10⟩⟩ (by decide) (by decide),
   C7_save_writes_counter_pennyop_file [] [(1, ⟨0, ⟨1, 3, 10⟩⟩), (2, ⟨0, ⟨2, 4, 11⟩⟩)]
      2 ⟨0, ⟨2, 4, 11⟩⟩ (by decide) (by decide)⟩

/-- Counterexample to claim C8: an aborting save is not atomic across the
batch — with an existing `2.pennyop` file, saving the batch {1, 2} (drained
in that order) aborts, yet `1.pennyop`, absent before the call, has been
written. -/
theorem C8_counterexample_partial_batch :
    (save_operations [(opFilePath 0 2, [9])]
        [(1, ⟨0, ⟨1, 3, 10⟩⟩), (2, ⟨0, ⟨2, 4, 11⟩⟩)]).2 = true ∧
    fsLookup [(opFilePath 0 2, [9])] (opFilePath 0 1) = none ∧
    fsLookup (save_operations [(opFilePath 0 2, [9])]
        [(1, ⟨0, ⟨1, 3, 10⟩⟩), (2, ⟨0, ⟨2, 4, 11⟩⟩)]).1
      (opFilePath 0 1) = some (encodeOpData ⟨1, 3, 10⟩) := by
  decide

/-- Claim C8 as amended: when the save aborts on a collision, the operations
drained before the colliding one remain written and the file system is left
exactly as the partial save produced it; only files that existed before the
call are guaranteed untouched. -/
theorem C8_abort_keeps_earlier_writes (fs : FS) (l1 : List (Nat × Operation))
    (counter : Nat) (op : Operation) (l2 : List (Nat × Operation))
    (hok : (save_operations fs l1).2 = false)
    (hex : fsExists fs (opFilePath op.user_pub_key counter) = true) :
    save_operations fs (l1 ++ (counter, op) :: l2) = ((save_operations fs l1).1, true) ∧
    ∀ (c : Nat) (o : Operation), (c, o) ∈ l1 →
      fsLookup (save_operations fs (l1 ++ (counter, op) :: l2)).1
          (opFilePath o.user_pub_key c) = some (encodeOpData o.data) := by
  have h1 := save_append l1 fs ((counter, op) :: l2) hok
  have hex' : fsExists (save_operations fs l1).1 (opFilePath op.user_pub_key counter) = true :=
    fsExists_save l1 fs _ hex
  have h2 : save_operations (save_operations fs l1).1 ((counter, op) :: l2)
      = ((save_operations fs l1).1, true) := by
    simp [save_operations, hex']
  constructor
  · rw [h1, h2]
  · intro c o hmem
    rw [h1, h2]
    exact save_written l1 fs c o hmem hok

/-- Witness for C8 as amended: the concrete aborting batch of
`C8_counterexample_partial_batch`, derived from the amended theorem. -/
theorem C8_abort_keeps_earlier_writes_witness :
    save_operations [(opFilePath 0 2, [9])]
        ([(1, ⟨0, ⟨1, 3, 10⟩⟩)] ++ (2, ⟨0, ⟨2, 4, 11⟩⟩) :: [])
      = ((save_operations [(opFilePath 0 2, [9])] [(1, ⟨0, ⟨1, 3, 10⟩⟩)]).1, true) ∧
    fsLookup (save_operations [(opFilePath 0 2, [9])]
        ([(1, ⟨0, ⟨1, 3, 10⟩⟩)] ++ (2, ⟨0, ⟨2, 4, 11⟩⟩) :: [])).1
      (opFilePath 0 1) = some (encodeOpData ⟨1, 3, 10⟩) := by
  have h := C8_abort_keeps_earlier_writes [(opFilePath 0 2, [9])]
    [(1, ⟨0, ⟨1, 3, 10⟩⟩)] 2 ⟨0, ⟨2, 4, 11⟩⟩ [] (by decide) (by decide)
  exact ⟨h.1, h.2 1 ⟨0, ⟨1, 3, 10⟩⟩ (by decide)⟩

/-- Claim C9 (code bug): the keystore does not round-trip when the previous
`keys.json` content is longer than the new serialization, because the file is
opened without truncation: stale trailing bytes survive and the strict parse
then fails (the code would panic on the unwrap).  The write over an empty
file and the codec itself both round-trip, isolating the missing truncation
as the cause. -/
theorem C9_keystore_roundtrip_bug :
    get_all_saved_keypairs
        (set_all_saved_keypairs (encodeKeys ⟨0, 0, [(7, ⟨8, 9⟩)]⟩) ⟨0, 0, []⟩) = none ∧
    get_all_saved_keypairs (set_all_saved_keypairs [] ⟨0, 0, []⟩) = some ⟨0, 0, []⟩ ∧
    get_all_saved_keypairs (encodeKeys ⟨0, 0, [(7, ⟨8, 9⟩)]⟩)
      = some ⟨0, 0, [(7, ⟨8, 9⟩)]⟩ := by
  decide

/-- Claim C10: when the project has no `operations` directory,
`restore_operations` returns the input CRDT unchanged — value, applied set
and pending buffer all identical. -/
theorem C10_restore_no_dir_identity (crdt : CRDT) :
    (restore_operations none crdt).value = crdt.value ∧
    (restore_operations none crdt).applied = crdt.applied ∧
    (restore_operations none crdt).pending = crdt.pending :=
  ⟨rfl, rfl, rfl⟩

end Crdts
